import Mathlib

/-!
Verification of the orbital-elements core of the adcs_tools repository
(src/orbital_elements/core.py).

The Python source computes the seven Classical Orbital Elements from a
Cartesian state vector (position r, velocity v, gravitational parameter mu)
using numpy double-precision arithmetic.  We embed the computation over the
exact real numbers ℝ.  The numpy float sentinels are made explicit:

* np.nan results (the "undefined" sentinel for RAAN/omega/nu, and the
  unguarded 0/0 in the inclination when the angular momentum is zero) are
  modelled as `none` of an `Option ℝ` field;
* np.inf for the near-parabolic semi-major axis is modelled as `none` of the
  `a` field (that field can never be nan in the source, and the nan-fields
  can never be inf, so each field has a single sentinel meaning);
* non-finite *inputs* (which only matter for input validation) are modelled
  by the inductive type `NpFloat` with explicit nan/inf/ninf constructors.

Branch conditions (n != 0, e > 1e-8, abs(energy) > 1e-12, the quadrant
tests) are exact comparisons in the source and are translated verbatim.
-/

noncomputable section
open Classical

namespace AdcsTools

/-- Earth's gravitational parameter, the module-level constant MU_EARTH of
core.py (km^3/s^2). -/
def MU_EARTH : ℝ := 398600.4418

/-- A 3-dimensional real vector, the contents of a numpy array of shape (3,).
Components are exact reals; non-finite components only occur at the
validation boundary and are handled by the separate NpFloat input model. -/
@[ext]
structure Vec3 where
  x : ℝ
  y : ℝ
  z : ℝ

/-- np.dot for 3-vectors. -/
def dot (a b : Vec3) : ℝ := a.x * b.x + a.y * b.y + a.z * b.z

/-- np.cross for 3-vectors. -/
def cross (a b : Vec3) : Vec3 :=
  ⟨a.y * b.z - a.z * b.y, a.z * b.x - a.x * b.z, a.x * b.y - a.y * b.x⟩

/-- Scalar multiplication of a 3-vector. -/
def smul (c : ℝ) (a : Vec3) : Vec3 := ⟨c * a.x, c * a.y, c * a.z⟩

/-- Componentwise subtraction of 3-vectors. -/
def vsub (a b : Vec3) : Vec3 := ⟨a.x - b.x, a.y - b.y, a.z - b.z⟩

/-- np.linalg.norm for 3-vectors (Euclidean norm). -/
def vnorm (a : Vec3) : ℝ := Real.sqrt (dot a a)

/-- np.clip(x, -1.0, 1.0). -/
def clip (x : ℝ) : ℝ := max (-1) (min x 1)

/-- np.degrees: radians to degrees. -/
def degrees (x : ℝ) : ℝ := x * 180 / Real.pi

/-- The safe_arccos helper of core.py: numerically safe arccos with the
argument clamped to [-1, 1] before the inverse cosine. -/
def safe_arccos (x : ℝ) : ℝ := Real.arccos (clip x)

/-- Plain np.arccos, which returns nan (modelled as none) when its argument
lies outside [-1, 1].  This is the function used at the single unclamped
inverse-cosine site (the argument of perigee) of core.py. -/
def np_arccos (x : ℝ) : Option ℝ :=
  if -1 ≤ x ∧ x ≤ 1 then some (Real.arccos x) else none

/-- The (r, v, mu) data read by calculate: the fields self.r, self.v,
self.mu of a ClassicalOrbitalElements instance. -/
structure State where
  r : Vec3
  v : Vec3
  mu : ℝ

/-- The full-precision result dict self.coe built by calculate.  Fields a,
i, RAAN, omega, nu are Option ℝ: none models np.inf for a (near-parabolic)
and np.nan for the four others (undefined / unguarded 0/0). -/
structure COE where
  h : ℝ
  a : Option ℝ
  i : Option ℝ
  RAAN : Option ℝ
  e : ℝ
  omega : Option ℝ
  nu : Option ℝ

namespace ClassicalOrbitalElements

/-- r_norm = np.linalg.norm(r). -/
def r_norm (s : State) : ℝ := vnorm s.r

/-- v_norm = np.linalg.norm(v). -/
def v_norm (s : State) : ℝ := vnorm s.v

/-- h_vec = np.cross(r, v). -/
def h_vec (s : State) : Vec3 := cross s.r s.v

/-- h = np.linalg.norm(h_vec). -/
def hmag (s : State) : ℝ := vnorm (h_vec s)

/-- i = np.degrees(safe_arccos(h_vec[2] / h)).  The division is unguarded
in the source: when h = 0 (necessarily h_vec = 0 as well) numpy evaluates
0/0 = nan, clip and arccos propagate it, and the stored inclination is nan;
this is the none branch.  When h is nonzero the division is an ordinary real
division and the result is an ordinary real. -/
def iOf (s : State) : Option ℝ :=
  if hmag s = 0 then none
  else some (degrees (safe_arccos ((h_vec s).z / hmag s)))

/-- n_vec = np.cross(k_hat, h_vec) with k_hat = [0, 0, 1]. -/
def n_vec (s : State) : Vec3 := cross ⟨0, 0, 1⟩ (h_vec s)

/-- n = np.linalg.norm(n_vec). -/
def nmag (s : State) : ℝ := vnorm (n_vec s)

/-- RAAN: if n != 0, degrees(safe_arccos(n_vec[0]/n)) with the quadrant
correction RAAN := 360 - RAAN when n_vec[1] < 0; otherwise np.nan
(undefined for equatorial orbits). -/
def raanOf (s : State) : Option ℝ :=
  if nmag s ≠ 0 then
    some (if (n_vec s).y < 0 then 360 - degrees (safe_arccos ((n_vec s).x / nmag s))
          else degrees (safe_arccos ((n_vec s).x / nmag s)))
  else none

/-- e_vec = (1/mu) * ((v_norm**2 - mu/r_norm)*r - np.dot(r, v)*v). -/
def e_vec (s : State) : Vec3 :=
  smul (1 / s.mu)
    (vsub (smul ((v_norm s) ^ 2 - s.mu / r_norm s) s.r) (smul (dot s.r s.v) s.v))

/-- e = np.linalg.norm(e_vec). -/
def emag (s : State) : ℝ := vnorm (e_vec s)

/-- Argument of perigee: if n != 0 and e > 1e-8, degrees of the UNCLAMPED
np.arccos of dot(n_vec, e_vec)/(n*e) (nan, i.e. none, if that argument
leaves [-1,1]), with the quadrant correction omega := 360 - omega when
e_vec[2] < 0; otherwise np.nan. -/
def omegaOf (s : State) : Option ℝ :=
  if nmag s ≠ 0 ∧ emag s > 1e-8 then
    (np_arccos (dot (n_vec s) (e_vec s) / (nmag s * emag s))).map
      (fun w => if (e_vec s).z < 0 then 360 - degrees w else degrees w)
  else none

/-- True anomaly: elliptical branch (e > 1e-8) via the eccentricity vector
with correction when dot(r, v) < 0; circular branch (e <= 1e-8, n != 0) via
the node vector with correction when r[2] < 0; np.nan when circular and
equatorial. -/
def nuOf (s : State) : Option ℝ :=
  if emag s > 1e-8 then
    some (if dot s.r s.v < 0 then
            360 - degrees (safe_arccos (dot (e_vec s) s.r / (emag s * r_norm s)))
          else degrees (safe_arccos (dot (e_vec s) s.r / (emag s * r_norm s))))
  else if nmag s ≠ 0 then
    some (if s.r.z < 0 then
            360 - degrees (safe_arccos (dot (n_vec s) s.r / (nmag s * r_norm s)))
          else degrees (safe_arccos (dot (n_vec s) s.r / (nmag s * r_norm s))))
  else none

/-- energy = v_norm**2 / 2 - mu / r_norm. -/
def energyOf (s : State) : ℝ := (v_norm s) ^ 2 / 2 - s.mu / r_norm s

/-- Semi-major axis: -mu/(2*energy) when abs(energy) > 1e-12, np.inf
(modelled none) otherwise. -/
def aOf (s : State) : Option ℝ :=
  if |energyOf s| > 1e-12 then some (-s.mu / (2 * energyOf s)) else none

/-- ClassicalOrbitalElements.calculate of core.py: the seven-field record
self.coe. -/
def calculate (s : State) : COE :=
  { h := hmag s, a := aOf s, i := iOf s, RAAN := raanOf s,
    e := emag s, omega := omegaOf s, nu := nuOf s }

/-- Modelled from the spec:  the all-clamped variant of calculate that §9 of
the spec proposes ("fix consistently"), identical to the source calculate
except that the argument-of-perigee site also goes through safe_arccos.
Used only to compare against the source definition for claim C6. -/
def omegaClamped (s : State) : Option ℝ :=
  if nmag s ≠ 0 ∧ emag s > 1e-8 then
    some (if (e_vec s).z < 0 then
            360 - degrees (safe_arccos (dot (n_vec s) (e_vec s) / (nmag s * emag s)))
          else degrees (safe_arccos (dot (n_vec s) (e_vec s) / (nmag s * emag s))))
  else none

/-- calculate with the spec-proposed clamping also at the omega site. -/
def calculateClamped (s : State) : COE :=
  { calculate s with omega := omegaClamped s }

end ClassicalOrbitalElements

/-- An IEEE double as seen by the validation code: either a finite value
(every finite double is an exact real, indeed rational) or one of the
non-finite sentinels nan, +inf, -inf. -/
inductive NpFloat where
  | fin (x : ℝ)
  | nan
  | inf
  | ninf

/-- np.isfinite for one component. -/
def NpFloat.finite : NpFloat → Prop
  | .fin _ => True
  | _ => False

/-- One component's contribution to np.allclose(vec, 0): np.isclose(x, 0)
is abs(x - 0) <= atol + rtol*abs(0) = atol = 1e-8 for finite x, and False
for nan and +-inf. -/
def NpFloat.closeZero : NpFloat → Prop
  | .fin x => |x| ≤ 1e-8
  | _ => False

/-- The real value of a finite component (the sentinels never reach the
computation because validation rejects them; their value here is a dummy). -/
def NpFloat.val : NpFloat → ℝ
  | .fin x => x
  | _ => 0

/-- A raw 3-vector input before validation. -/
structure NpVec3 where
  x : NpFloat
  y : NpFloat
  z : NpFloat

/-- np.allclose(a, 0) over the three components. -/
def NpVec3.allCloseZero (a : NpVec3) : Prop :=
  a.x.closeZero ∧ a.y.closeZero ∧ a.z.closeZero

/-- np.isfinite(a).all(). -/
def NpVec3.allFinite (a : NpVec3) : Prop :=
  a.x.finite ∧ a.y.finite ∧ a.z.finite

/-- The literal zero vector (what the spec means by "the position vector is
zero"). -/
def NpVec3.isZero (a : NpVec3) : Prop :=
  a.x = .fin 0 ∧ a.y = .fin 0 ∧ a.z = .fin 0

/-- The real 3-vector carried by a validated input. -/
def NpVec3.val (a : NpVec3) : Vec3 := ⟨a.x.val, a.y.val, a.z.val⟩

/-- The condition under which _validate_input raises ValueError: position
allclose to zero, or velocity allclose to zero, or some component of either
not finite (the three raise sites of core.py lines 26-31). -/
def InvalidInput (r v : NpVec3) : Prop :=
  r.allCloseZero ∨ v.allCloseZero ∨ ¬ r.allFinite ∨ ¬ v.allFinite

/-- A state that passed _validate_input, phrased directly on the real
vectors (finiteness is intrinsic to ℝ): neither vector is allclose to
zero. -/
def Validated (s : State) : Prop :=
  ¬ (|s.r.x| ≤ 1e-8 ∧ |s.r.y| ≤ 1e-8 ∧ |s.r.z| ≤ 1e-8) ∧
  ¬ (|s.v.x| ≤ 1e-8 ∧ |s.v.y| ≤ 1e-8 ∧ |s.v.z| ≤ 1e-8)

/-- The mutable state of a ClassicalOrbitalElements instance: the three
inputs stored by __init__ plus the two result slots written by calculate
(self.coe, initialised to None by __init__, and self.coe_display). -/
structure Obj where
  r : Vec3
  v : Vec3
  mu : ℝ
  coe : Option COE
  coe_display : Option COE

/-- Python round(x, 2) on a finite double: round half to even at the second
decimal. -/
def round2 (x : ℝ) : ℝ :=
  (if Int.fract (100 * x) = 1 / 2 then
     (if Even ⌊(100 * x : ℝ)⌋ then (⌊(100 * x : ℝ)⌋ : ℝ) else (⌊(100 * x : ℝ)⌋ : ℝ) + 1)
   else (round (100 * x : ℝ) : ℝ)) / 100

/-- The rounded display copy self.coe_display: round(v, 2) applied to every
field; round leaves the nan and inf sentinels (none) in place. -/
def COE.display (c : COE) : COE :=
  { h := round2 c.h, a := c.a.map round2, i := c.i.map round2,
    RAAN := c.RAAN.map round2, e := round2 c.e,
    omega := c.omega.map round2, nu := c.nu.map round2 }

/-- ClassicalOrbitalElements.calculate as a state transformer on the
instance: it reads self.r, self.v, self.mu, writes self.coe and
self.coe_display, and returns self.coe. -/
def calculateS (o : Obj) : COE × Obj :=
  let c := ClassicalOrbitalElements.calculate ⟨o.r, o.v, o.mu⟩
  (c, ⟨o.r, o.v, o.mu, some c, some c.display⟩)

/-- The __init__ constructor: store the inputs, set self.coe to None, then
validate; a ValueError from validation is the none result. -/
def mkObj (r v : NpVec3) (mu : ℝ) : Option Obj :=
  if InvalidInput r v then none else some ⟨r.val, v.val, mu, none, none⟩

/-- Constructor followed by calculate: the end-to-end core operation.  A
none result models the ValueError escaping to the caller. -/
def computeCOE (r v : NpVec3) (mu : ℝ) : Option COE :=
  (mkObj r v mu).map (fun o => (calculateS o).1)

/-- Scenario 1 of the spec: r = [7000, 0, 0] km, v = [0, 7.546, 0] km/s,
mu = MU_EARTH. -/
def scenario1 : State := ⟨⟨7000, 0, 0⟩, ⟨0, 7.546, 0⟩, MU_EARTH⟩

/-- A validated pure-radial state: v = 2 r, so h_vec = 0. -/
def radialState : State := ⟨⟨1, 0, 0⟩, ⟨2, 0, 0⟩, MU_EARTH⟩

/-- The near-zero but nonzero, finite position input [1e-9, 0, 0]. -/
def rTiny : NpVec3 := ⟨.fin 1e-9, .fin 0, .fin 0⟩

/-- An ordinary finite velocity input [0, 7, 0]. -/
def vUnit : NpVec3 := ⟨.fin 0, .fin 7, .fin 0⟩

/-- A plainly valid position input [7000, 0, 0]. -/
def rBig : NpVec3 := ⟨.fin 7000, .fin 0, .fin 0⟩

/-- A freshly constructed instance holding scenario 1's state (self.coe
still None). -/
def obj1 : Obj := ⟨⟨7000, 0, 0⟩, ⟨0, 7.546, 0⟩, MU_EARTH, none, none⟩

/-- Two 3-vectors are parallel when one is a scalar multiple of the other. -/
def Parallel (a b : Vec3) : Prop :=
  (∃ t : ℝ, b = smul t a) ∨ (∃ t : ℝ, a = smul t b)

/-- Validation at the Obj level: the state stored by the constructor passed
_validate_input. -/
def Obj.Valid (o : Obj) : Prop := Validated ⟨o.r, o.v, o.mu⟩

/-! Basic facts about the embedded vector algebra. -/

lemma dot_self_nonneg (a : Vec3) : 0 ≤ dot a a := by
  have hx := mul_self_nonneg a.x
  have hy := mul_self_nonneg a.y
  have hz := mul_self_nonneg a.z
  unfold dot
  linarith

lemma vnorm_nonneg (a : Vec3) : 0 ≤ vnorm a := Real.sqrt_nonneg _

lemma vnorm_sq (a : Vec3) : (vnorm a) ^ 2 = dot a a := Real.sq_sqrt (dot_self_nonneg a)

lemma vnorm_eq_zero_iff (a : Vec3) : vnorm a = 0 ↔ dot a a = 0 :=
  Real.sqrt_eq_zero (dot_self_nonneg a)

lemma dot_self_eq_zero_iff (a : Vec3) : dot a a = 0 ↔ a = ⟨0, 0, 0⟩ := by
  constructor
  · intro h
    unfold dot at h
    have hx : a.x * a.x = 0 := by
      nlinarith [mul_self_nonneg a.x, mul_self_nonneg a.y, mul_self_nonneg a.z]
    have hy : a.y * a.y = 0 := by
      nlinarith [mul_self_nonneg a.x, mul_self_nonneg a.y, mul_self_nonneg a.z]
    have hz : a.z * a.z = 0 := by
      nlinarith [mul_self_nonneg a.x, mul_self_nonneg a.y, mul_self_nonneg a.z]
    ext
    · exact mul_self_eq_zero.mp hx
    · exact mul_self_eq_zero.mp hy
    · exact mul_self_eq_zero.mp hz
  · rintro rfl
    unfold dot
    norm_num

lemma vnorm_pos_of_ne (a : Vec3) (h : a ≠ ⟨0, 0, 0⟩) : 0 < vnorm a := by
  rcases (vnorm_nonneg a).lt_or_eq with h1 | h1
  · exact h1
  · exact absurd ((dot_self_eq_zero_iff a).mp ((vnorm_eq_zero_iff a).mp h1.symm)) h

lemma vnorm_pos_of_ne_zero (a : Vec3) (h : vnorm a ≠ 0) : 0 < vnorm a :=
  lt_of_le_of_ne (vnorm_nonneg a) (Ne.symm h)

lemma lagrange_identity (a b : Vec3) :
    dot a a * dot b b - dot a b ^ 2 =
      (cross a b).x ^ 2 + (cross a b).y ^ 2 + (cross a b).z ^ 2 := by
  simp only [dot, cross]
  ring

lemma dot_sq_le (a b : Vec3) : dot a b ^ 2 ≤ dot a a * dot b b := by
  nlinarith [lagrange_identity a b, sq_nonneg (cross a b).x, sq_nonneg (cross a b).y,
    sq_nonneg (cross a b).z]

lemma abs_dot_le (a b : Vec3) : |dot a b| ≤ vnorm a * vnorm b := by
  rw [← Real.sqrt_sq_eq_abs, vnorm, vnorm, ← Real.sqrt_mul (dot_self_nonneg a)]
  exact Real.sqrt_le_sqrt (dot_sq_le a b)

lemma dot_le_vnorm_mul (a b : Vec3) : dot a b ≤ vnorm a * vnorm b :=
  le_trans (le_abs_self _) (abs_dot_le a b)

lemma cross_eq_zero_of_dot_eq (a b : Vec3) (h : dot a b = vnorm a * vnorm b) :
    cross a b = ⟨0, 0, 0⟩ := by
  have h2 : dot a b ^ 2 = dot a a * dot b b := by
    calc dot a b ^ 2 = (vnorm a * vnorm b) ^ 2 := by rw [h]
    _ = (vnorm a) ^ 2 * (vnorm b) ^ 2 := by ring
    _ = dot a a * dot b b := by rw [vnorm_sq, vnorm_sq]
  have h3 := lagrange_identity a b
  have hx : (cross a b).x ^ 2 = 0 :=
    le_antisymm (by nlinarith [sq_nonneg (cross a b).y, sq_nonneg (cross a b).z]) (sq_nonneg _)
  have hy : (cross a b).y ^ 2 = 0 :=
    le_antisymm (by nlinarith [sq_nonneg (cross a b).x, sq_nonneg (cross a b).z]) (sq_nonneg _)
  have hz : (cross a b).z ^ 2 = 0 :=
    le_antisymm (by nlinarith [sq_nonneg (cross a b).x, sq_nonneg (cross a b).y]) (sq_nonneg _)
  ext
  · exact pow_eq_zero_iff two_ne_zero |>.mp hx
  · exact pow_eq_zero_iff two_ne_zero |>.mp hy
  · exact pow_eq_zero_iff two_ne_zero |>.mp hz

lemma eq_smul_of_cross_eq_zero (a b : Vec3) (hc : cross a b = ⟨0, 0, 0⟩)
    (ha : dot a a ≠ 0) : b = smul (dot a b / dot a a) a := by
  have h1 : a.y * b.z - a.z * b.y = 0 := congrArg Vec3.x hc
  have h2 : a.z * b.x - a.x * b.z = 0 := congrArg Vec3.y hc
  have h3 : a.x * b.y - a.y * b.x = 0 := congrArg Vec3.z hc
  have hx : b.x * dot a a = dot a b * a.x := by
    unfold dot
    linear_combination (-a.y) * h3 + a.z * h2
  have hy : b.y * dot a a = dot a b * a.y := by
    unfold dot
    linear_combination a.x * h3 - a.z * h1
  have hz : b.z * dot a a = dot a b * a.z := by
    unfold dot
    linear_combination (-a.x) * h2 + a.y * h1
  ext
  · show b.x = dot a b / dot a a * a.x
    field_simp
    linarith [hx]
  · show b.y = dot a b / dot a a * a.y
    field_simp
    linarith [hy]
  · show b.z = dot a b / dot a a * a.z
    field_simp
    linarith [hz]

lemma cross_smul_right (t : ℝ) (a : Vec3) : cross a (smul t a) = ⟨0, 0, 0⟩ := by
  simp only [cross, smul, Vec3.mk.injEq]
  refine ⟨by ring, by ring, by ring⟩

lemma cross_smul_left (t : ℝ) (a : Vec3) : cross (smul t a) a = ⟨0, 0, 0⟩ := by
  simp only [cross, smul, Vec3.mk.injEq]
  refine ⟨by ring, by ring, by ring⟩

/-! Facts about clip, safe_arccos, np_arccos and degrees. -/

lemma neg_one_le_clip (x : ℝ) : -1 ≤ clip x := le_max_left _ _

lemma clip_le_one (x : ℝ) : clip x ≤ 1 :=
  max_le (by norm_num) (min_le_right x 1)

lemma clip_lt_one (x : ℝ) (h : x < 1) : clip x < 1 := by
  unfold clip
  rw [min_eq_left h.le]
  exact max_lt (by norm_num) h

lemma clip_eq_self (x : ℝ) (h1 : -1 ≤ x) (h2 : x ≤ 1) : clip x = x := by
  unfold clip
  rw [min_eq_left h2, max_eq_right h1]

lemma safe_arccos_nonneg (x : ℝ) : 0 ≤ safe_arccos x := Real.arccos_nonneg _

lemma safe_arccos_le_pi (x : ℝ) : safe_arccos x ≤ Real.pi := Real.arccos_le_pi _

lemma safe_arccos_pos (x : ℝ) (h : x < 1) : 0 < safe_arccos x :=
  Real.arccos_pos.mpr (clip_lt_one x h)

lemma np_arccos_eq_some (x : ℝ) (h1 : -1 ≤ x) (h2 : x ≤ 1) :
    np_arccos x = some (Real.arccos x) := by
  unfold np_arccos
  rw [if_pos ⟨h1, h2⟩]

lemma np_arccos_ne_none (x : ℝ) (h1 : -1 ≤ x) (h2 : x ≤ 1) : np_arccos x ≠ none := by
  rw [np_arccos_eq_some x h1 h2]
  exact Option.some_ne_none _

lemma degrees_nonneg (x : ℝ) (h : 0 ≤ x) : 0 ≤ degrees x :=
  div_nonneg (mul_nonneg h (by norm_num)) Real.pi_pos.le

lemma degrees_pos (x : ℝ) (h : 0 < x) : 0 < degrees x :=
  div_pos (mul_pos h (by norm_num)) Real.pi_pos

lemma degrees_le_180 (x : ℝ) (h : x ≤ Real.pi) : degrees x ≤ 180 := by
  unfold degrees
  rw [div_le_iff₀ Real.pi_pos]
  nlinarith [Real.pi_pos]

lemma degrees_zero : degrees 0 = 0 := by
  unfold degrees
  ring

lemma degrees_pi : degrees Real.pi = 180 := by
  unfold degrees
  field_simp

/-- Range of a quadrant-corrected angle: if the base angle d is in [0, 180]
and is strictly positive whenever the correction branch is taken, then the
corrected angle lies in [0, 360). -/
lemma corrected_range (d : ℝ) (cond : Prop) (h0 : 0 ≤ d) (h180 : d ≤ 180)
    (hpos : cond → 0 < d) :
    0 ≤ (if cond then 360 - d else d) ∧ (if cond then 360 - d else d) < 360 := by
  by_cases hc : cond
  · rw [if_pos hc]
    have := hpos hc
    constructor <;> linarith
  · rw [if_neg hc]
    exact ⟨h0, by linarith⟩

lemma div_mem_Icc_of_abs_le (num den : ℝ) (hden : 0 < den) (h : |num| ≤ den) :
    -1 ≤ num / den ∧ num / den ≤ 1 := by
  rw [abs_le] at h
  constructor
  · rw [le_div_iff₀ hden]
    linarith
  · rw [div_le_one hden]
    exact h.2

/-! State-level geometric lemmas feeding the claims. -/

namespace ClassicalOrbitalElements

lemma n_vec_z (s : State) : (n_vec s).z = 0 := by
  simp only [n_vec, cross]
  ring

lemma validated_r_ne (s : State) (h : Validated s) : s.r ≠ ⟨0, 0, 0⟩ := by
  intro hz
  exact h.1 (by rw [hz]; norm_num)

lemma validated_v_ne (s : State) (h : Validated s) : s.v ≠ ⟨0, 0, 0⟩ := by
  intro hz
  exact h.2 (by rw [hz]; norm_num)

lemma validated_r_norm_pos (s : State) (h : Validated s) : 0 < r_norm s :=
  vnorm_pos_of_ne s.r (validated_r_ne s h)

/-- Strictness at a clamped-arccos site whose first vector lies in the
reference plane: if a.z = 0, b.z is nonzero, and a is nonzero, then the
cosine argument dot(a,b)/(|a||b|) cannot reach 1, because equality in
Cauchy-Schwarz would force b to be a multiple of a, hence b.z = 0. -/
lemma dot_lt_of_plane (a b : Vec3) (haz : a.z = 0) (hbz : b.z ≠ 0)
    (ha : dot a a ≠ 0) : dot a b < vnorm a * vnorm b := by
  rcases (dot_le_vnorm_mul a b).lt_or_eq with h | h
  · exact h
  · exfalso
    have hb := eq_smul_of_cross_eq_zero a b (cross_eq_zero_of_dot_eq a b h) ha
    have : b.z = dot a b / dot a a * a.z := congrArg Vec3.z hb
    rw [haz, mul_zero] at this
    exact hbz this

/-- The RAAN correction branch never reaches a full turn: when n_vec.y < 0
the clamped cosine argument n_vec.x / n is strictly below 1. -/
lemma raan_arg_lt_one (s : State) (hn : nmag s ≠ 0) (hy : (n_vec s).y < 0) :
    (n_vec s).x / nmag s < 1 := by
  have hpos : 0 < nmag s := vnorm_pos_of_ne_zero _ hn
  rw [div_lt_one hpos]
  have hz := n_vec_z s
  have h3 : (n_vec s).x ^ 2 < dot (n_vec s) (n_vec s) := by
    have hyy : 0 < (n_vec s).y * (n_vec s).y := mul_pos_of_neg_of_neg hy hy
    simp only [dot]
    nlinarith [hz]
  calc (n_vec s).x ≤ |(n_vec s).x| := le_abs_self _
  _ = Real.sqrt ((n_vec s).x ^ 2) := (Real.sqrt_sq_eq_abs _).symm
  _ < Real.sqrt (dot (n_vec s) (n_vec s)) := Real.sqrt_lt_sqrt (sq_nonneg _) h3
  _ = nmag s := rfl

/-- cross(e_vec, r) is the multiple dot(r,v)/mu of cross(r, v): the radial
part of the eccentricity vector drops out of the cross product. -/
lemma cross_e_vec_r (s : State) :
    cross (e_vec s) s.r = smul (dot s.r s.v / s.mu) (cross s.r s.v) := by
  simp only [e_vec, cross, smul, vsub, dot, Vec3.mk.injEq]
  refine ⟨by ring, by ring, by ring⟩

lemma e_vec_of_mu_zero (s : State) (hmu : s.mu = 0) : e_vec s = ⟨0, 0, 0⟩ := by
  simp only [e_vec, smul, hmu]
  norm_num

/-- The elliptical true-anomaly correction branch never reaches a full
turn: with dot(r,v) < 0 the cosine argument dot(e_vec,r)/(e*r_norm) is
strictly below 1.  Equality in Cauchy-Schwarz would force e_vec parallel to
r, hence (as dot(r,v) is nonzero) r parallel to v, and then the algebra
gives dot(e_vec, r) = -r_norm < 0, contradicting equality with the positive
e*r_norm. -/
lemma ecc_dot_lt (s : State) (hr : 0 < r_norm s) (he : emag s > 1e-8)
    (hrv : dot s.r s.v < 0) : dot (e_vec s) s.r < emag s * r_norm s := by
  rcases (dot_le_vnorm_mul (e_vec s) s.r).lt_or_eq with h | h
  · exact h
  · exfalso
    have hepos : 0 < emag s := lt_trans (by norm_num) he
    by_cases hmu : s.mu = 0
    · have h0 : emag s = 0 := by
        unfold emag
        rw [e_vec_of_mu_zero s hmu]
        unfold vnorm dot
        norm_num
      linarith
    have hc := cross_eq_zero_of_dot_eq (e_vec s) s.r h
    rw [cross_e_vec_r s] at hc
    have hdmu : dot s.r s.v / s.mu ≠ 0 := div_ne_zero (ne_of_lt hrv) hmu
    have hcr : cross s.r s.v = ⟨0, 0, 0⟩ := by
      have hx : dot s.r s.v / s.mu * (cross s.r s.v).x = 0 := congrArg Vec3.x hc
      have hy : dot s.r s.v / s.mu * (cross s.r s.v).y = 0 := congrArg Vec3.y hc
      have hz : dot s.r s.v / s.mu * (cross s.r s.v).z = 0 := congrArg Vec3.z hc
      ext
      · exact (mul_eq_zero.mp hx).resolve_left hdmu
      · exact (mul_eq_zero.mp hy).resolve_left hdmu
      · exact (mul_eq_zero.mp hz).resolve_left hdmu
    have hlag : dot s.r s.r * dot s.v s.v - dot s.r s.v ^ 2 = 0 := by
      have hl := lagrange_identity s.r s.v
      rw [hcr] at hl
      simpa using hl
    have expand : dot (e_vec s) s.r =
        1 / s.mu * (((v_norm s) ^ 2 - s.mu / r_norm s) * dot s.r s.r -
          dot s.r s.v * dot s.r s.v) := by
      simp only [e_vec, smul, vsub, dot]
      ring
    have hv2 : (v_norm s) ^ 2 = dot s.v s.v := vnorm_sq s.v
    have hr2 : r_norm s ^ 2 = dot s.r s.r := vnorm_sq s.r
    have hRne : r_norm s ≠ 0 := ne_of_gt hr
    have hmul : s.mu / r_norm s * r_norm s ^ 2 = s.mu * r_norm s := by
      field_simp
      ring
    have key : ((v_norm s) ^ 2 - s.mu / r_norm s) * dot s.r s.r -
        dot s.r s.v * dot s.r s.v = -(s.mu * r_norm s) := by
      rw [hv2, ← hr2]
      calc (dot s.v s.v - s.mu / r_norm s) * r_norm s ^ 2 - dot s.r s.v * dot s.r s.v
          = dot s.v s.v * r_norm s ^ 2 - s.mu / r_norm s * r_norm s ^ 2 -
            dot s.r s.v ^ 2 := by ring
        _ = dot s.v s.v * dot s.r s.r - s.mu * r_norm s - dot s.r s.v ^ 2 := by
            rw [hmul, hr2]
        _ = -(s.mu * r_norm s) := by linear_combination hlag
    have hdotval : dot (e_vec s) s.r = -(r_norm s) := by
      rw [expand, key]
      field_simp
      ring
    have hpos2 : 0 < emag s * r_norm s := mul_pos hepos hr
    have hee : vnorm (e_vec s) * vnorm s.r = emag s * r_norm s := rfl
    rw [h, hee] at hdotval
    linarith

/-! Branch characterizations of the three nullable angle fields. -/

lemma raanOf_eq_none_iff (s : State) : raanOf s = none ↔ nmag s = 0 := by
  unfold raanOf
  by_cases hn : nmag s ≠ 0
  · rw [if_pos hn]
    constructor
    · intro hx
      exact absurd hx (Option.some_ne_none _)
    · intro h0
      exact absurd h0 hn
  · rw [if_neg hn]
    push_neg at hn
    exact ⟨fun _ => hn, fun _ => rfl⟩

lemma omega_arg_mem (s : State) (hn : nmag s ≠ 0) (he : emag s > 1e-8) :
    -1 ≤ dot (n_vec s) (e_vec s) / (nmag s * emag s) ∧
      dot (n_vec s) (e_vec s) / (nmag s * emag s) ≤ 1 := by
  have hnp : 0 < nmag s := vnorm_pos_of_ne_zero _ hn
  have hep : 0 < emag s := lt_trans (by norm_num) he
  exact div_mem_Icc_of_abs_le _ _ (mul_pos hnp hep) (abs_dot_le (n_vec s) (e_vec s))

lemma omegaOf_eq_none_iff (s : State) :
    omegaOf s = none ↔ (nmag s = 0 ∨ emag s ≤ 1e-8) := by
  unfold omegaOf
  by_cases hb : nmag s ≠ 0 ∧ emag s > 1e-8
  · rw [if_pos hb]
    have hm := omega_arg_mem s hb.1 hb.2
    rw [np_arccos_eq_some _ hm.1 hm.2, Option.map_some']
    constructor
    · intro hx
      exact absurd hx (Option.some_ne_none _)
    · rintro (h0 | hle)
      · exact absurd h0 hb.1
      · linarith [hb.2]
  · rw [if_neg hb]
    push_neg at hb
    constructor
    · intro _
      by_cases hn : nmag s = 0
      · exact Or.inl hn
      · exact Or.inr (hb hn)
    · intro _
      rfl

lemma nuOf_eq_none_iff (s : State) :
    nuOf s = none ↔ (nmag s = 0 ∧ emag s ≤ 1e-8) := by
  unfold nuOf
  by_cases he : emag s > 1e-8
  · rw [if_pos he]
    constructor
    · intro hx
      exact absurd hx (Option.some_ne_none _)
    · rintro ⟨_, hle⟩
      linarith
  · rw [if_neg he]
    push_neg at he
    by_cases hn : nmag s ≠ 0
    · rw [if_pos hn]
      constructor
      · intro hx
        exact absurd hx (Option.some_ne_none _)
      · rintro ⟨h0, _⟩
        exact absurd h0 hn
    · rw [if_neg hn]
      push_neg at hn
      exact ⟨fun _ => ⟨hn, he⟩, fun _ => rfl⟩

end ClassicalOrbitalElements

open ClassicalOrbitalElements

namespace ClassicalOrbitalElements

/-! Range of each angle field after quadrant correction. -/

lemma i_range (s : State) (x : ℝ) (hx : iOf s = some x) : 0 ≤ x ∧ x ≤ 180 := by
  unfold iOf at hx
  by_cases hh : hmag s = 0
  · rw [if_pos hh] at hx
    exact Option.noConfusion hx
  · rw [if_neg hh] at hx
    have hx2 := Option.some.inj hx
    rw [← hx2]
    exact ⟨degrees_nonneg _ (safe_arccos_nonneg _), degrees_le_180 _ (safe_arccos_le_pi _)⟩

lemma raan_range (s : State) (x : ℝ) (hx : raanOf s = some x) : 0 ≤ x ∧ x < 360 := by
  unfold raanOf at hx
  by_cases hn : nmag s ≠ 0
  · rw [if_pos hn] at hx
    have hx2 := Option.some.inj hx
    have h0 : 0 ≤ degrees (safe_arccos ((n_vec s).x / nmag s)) :=
      degrees_nonneg _ (safe_arccos_nonneg _)
    have h180 : degrees (safe_arccos ((n_vec s).x / nmag s)) ≤ 180 :=
      degrees_le_180 _ (safe_arccos_le_pi _)
    have hpos : (n_vec s).y < 0 → 0 < degrees (safe_arccos ((n_vec s).x / nmag s)) :=
      fun hy => degrees_pos _ (safe_arccos_pos _ (raan_arg_lt_one s hn hy))
    have hr := corrected_range _ ((n_vec s).y < 0) h0 h180 hpos
    rw [hx2] at hr
    exact hr
  · rw [if_neg hn] at hx
    exact Option.noConfusion hx

lemma omega_range (s : State) (x : ℝ) (hx : omegaOf s = some x) : 0 ≤ x ∧ x < 360 := by
  unfold omegaOf at hx
  by_cases hb : nmag s ≠ 0 ∧ emag s > 1e-8
  · rw [if_pos hb] at hx
    have hm := omega_arg_mem s hb.1 hb.2
    rw [np_arccos_eq_some _ hm.1 hm.2, Option.map_some'] at hx
    have hx2 := Option.some.inj hx
    have h0 : 0 ≤ degrees (Real.arccos (dot (n_vec s) (e_vec s) / (nmag s * emag s))) :=
      degrees_nonneg _ (Real.arccos_nonneg _)
    have h180 :
        degrees (Real.arccos (dot (n_vec s) (e_vec s) / (nmag s * emag s))) ≤ 180 :=
      degrees_le_180 _ (Real.arccos_le_pi _)
    have hpos : (e_vec s).z < 0 →
        0 < degrees (Real.arccos (dot (n_vec s) (e_vec s) / (nmag s * emag s))) := by
      intro hz
      apply degrees_pos
      apply Real.arccos_pos.mpr
      have hnn : dot (n_vec s) (n_vec s) ≠ 0 := by
        intro h0'
        exact hb.1 ((vnorm_eq_zero_iff _).mpr h0')
      have hlt := dot_lt_of_plane (n_vec s) (e_vec s) (n_vec_z s) (ne_of_lt hz) hnn
      have hprod : 0 < nmag s * emag s :=
        mul_pos (vnorm_pos_of_ne_zero _ hb.1) (lt_trans (by norm_num) hb.2)
      rw [div_lt_one hprod]
      exact hlt
    have hr := corrected_range _ ((e_vec s).z < 0) h0 h180 hpos
    rw [hx2] at hr
    exact hr
  · rw [if_neg hb] at hx
    exact Option.noConfusion hx

lemma nu_range (s : State) (hval : Validated s) (x : ℝ) (hx : nuOf s = some x) :
    0 ≤ x ∧ x < 360 := by
  have hrpos : 0 < r_norm s := validated_r_norm_pos s hval
  unfold nuOf at hx
  by_cases he : emag s > 1e-8
  · rw [if_pos he] at hx
    have hx2 := Option.some.inj hx
    have h0 : 0 ≤ degrees (safe_arccos (dot (e_vec s) s.r / (emag s * r_norm s))) :=
      degrees_nonneg _ (safe_arccos_nonneg _)
    have h180 :
        degrees (safe_arccos (dot (e_vec s) s.r / (emag s * r_norm s))) ≤ 180 :=
      degrees_le_180 _ (safe_arccos_le_pi _)
    have hpos : dot s.r s.v < 0 →
        0 < degrees (safe_arccos (dot (e_vec s) s.r / (emag s * r_norm s))) := by
      intro hrv
      apply degrees_pos
      apply safe_arccos_pos
      have hlt := ecc_dot_lt s hrpos he hrv
      have hprod : 0 < emag s * r_norm s := mul_pos (lt_trans (by norm_num) he) hrpos
      rw [div_lt_one hprod]
      exact hlt
    have hr := corrected_range _ (dot s.r s.v < 0) h0 h180 hpos
    rw [hx2] at hr
    exact hr
  · rw [if_neg he] at hx
    by_cases hn : nmag s ≠ 0
    · rw [if_pos hn] at hx
      have hx2 := Option.some.inj hx
      have h0 : 0 ≤ degrees (safe_arccos (dot (n_vec s) s.r / (nmag s * r_norm s))) :=
        degrees_nonneg _ (safe_arccos_nonneg _)
      have h180 :
          degrees (safe_arccos (dot (n_vec s) s.r / (nmag s * r_norm s))) ≤ 180 :=
        degrees_le_180 _ (safe_arccos_le_pi _)
      have hpos : s.r.z < 0 →
          0 < degrees (safe_arccos (dot (n_vec s) s.r / (nmag s * r_norm s))) := by
        intro hz
        apply degrees_pos
        apply safe_arccos_pos
        have hnn : dot (n_vec s) (n_vec s) ≠ 0 := by
          intro h0'
          exact hn ((vnorm_eq_zero_iff _).mpr h0')
        have hlt := dot_lt_of_plane (n_vec s) s.r (n_vec_z s) (ne_of_lt hz) hnn
        have hprod : 0 < nmag s * r_norm s := mul_pos (vnorm_pos_of_ne_zero _ hn) hrpos
        rw [div_lt_one hprod]
        exact hlt
      have hr := corrected_range _ (s.r.z < 0) h0 h180 hpos
      rw [hx2] at hr
      exact hr
    · rw [if_neg hn] at hx
      exact Option.noConfusion hx

/-- The radial state has zero angular momentum. -/
lemma radial_hmag_zero : hmag radialState = 0 := by
  have hc : h_vec radialState = ⟨0, 0, 0⟩ := by
    simp only [h_vec, cross, radialState, Vec3.mk.injEq]
    norm_num
  show vnorm (h_vec radialState) = 0
  rw [hc]
  exact (vnorm_eq_zero_iff _).mpr ((dot_self_eq_zero_iff _).mpr rfl)

end ClassicalOrbitalElements

lemma scenario1_validated : Validated scenario1 := by
  simp only [Validated, scenario1, abs_le]
  norm_num

lemma radialState_validated : Validated radialState := by
  simp only [Validated, radialState, abs_le]
  norm_num

lemma scenario1_not_parallel : ¬ Parallel scenario1.r scenario1.v := by
  rintro (⟨t, ht⟩ | ⟨t, ht⟩)
  · have h := congrArg Vec3.y ht
    simp only [scenario1, smul] at h
    norm_num at h
  · have h := congrArg Vec3.x ht
    simp only [scenario1, smul] at h
    norm_num at h

lemma radial_parallel : Parallel radialState.r radialState.v :=
  Or.inl ⟨2, by simp only [radialState, smul, Vec3.mk.injEq]; norm_num⟩

/-- C2: for every validated input, the definedness of the three angular
outputs follows the degeneracy table exactly: RAAN is the undefined
sentinel if and only if n = 0; omega is undefined if and only if n = 0 or
e <= 1e-8; nu is undefined if and only if both n = 0 and e <= 1e-8. -/
theorem claim_C2 (s : State) (hval : Validated s) :
    ((calculate s).RAAN = none ↔ nmag s = 0) ∧
    ((calculate s).omega = none ↔ (nmag s = 0 ∨ emag s ≤ 1e-8)) ∧
    ((calculate s).nu = none ↔ (nmag s = 0 ∧ emag s ≤ 1e-8)) :=
  ⟨raanOf_eq_none_iff s, omegaOf_eq_none_iff s, nuOf_eq_none_iff s⟩

theorem claim_C2_witness :
    Validated scenario1 ∧
    (((calculate scenario1).RAAN = none ↔ nmag scenario1 = 0) ∧
     ((calculate scenario1).omega = none ↔
        (nmag scenario1 = 0 ∨ emag scenario1 ≤ 1e-8)) ∧
     ((calculate scenario1).nu = none ↔
        (nmag scenario1 = 0 ∧ emag scenario1 ≤ 1e-8))) :=
  ⟨scenario1_validated, claim_C2 scenario1 scenario1_validated⟩

/-- C5: the semi-major axis is computed from the specific orbital energy
energy = v_norm^2/2 - mu/r_norm: if the absolute energy exceeds 1e-12 then
a = -mu/(2*energy), otherwise a is the positive-infinity sentinel. -/
theorem claim_C5 (s : State) (hval : Validated s) :
    (1e-12 < |(v_norm s) ^ 2 / 2 - s.mu / r_norm s| →
      (calculate s).a = some (-s.mu / (2 * ((v_norm s) ^ 2 / 2 - s.mu / r_norm s)))) ∧
    (|(v_norm s) ^ 2 / 2 - s.mu / r_norm s| ≤ 1e-12 → (calculate s).a = none) := by
  have hE : energyOf s = (v_norm s) ^ 2 / 2 - s.mu / r_norm s := rfl
  constructor
  · intro h
    show aOf s = _
    unfold aOf
    rw [hE, if_pos h]
  · intro h
    show aOf s = none
    unfold aOf
    rw [hE, if_neg (not_lt.mpr h)]

theorem claim_C5_witness :
    Validated scenario1 ∧
    ((1e-12 < |(v_norm scenario1) ^ 2 / 2 - scenario1.mu / r_norm scenario1| →
       (calculate scenario1).a =
         some (-scenario1.mu /
           (2 * ((v_norm scenario1) ^ 2 / 2 - scenario1.mu / r_norm scenario1)))) ∧
     (|(v_norm scenario1) ^ 2 / 2 - scenario1.mu / r_norm scenario1| ≤ 1e-12 →
       (calculate scenario1).a = none)) :=
  ⟨scenario1_validated, claim_C5 scenario1 scenario1_validated⟩

/-- C6: the argument-of-perigee inverse cosine is the single unclamped
inverse-cosine site: plain np.arccos (np_arccos) is nan outside [-1, 1]
while agreeing with the clamped safe_arccos inside, and the source
calculate (unclamped omega site) coincides with the all-clamped variant on
every input because over exact reals the omega cosine argument never leaves
[-1, 1], so the omission of clamping at exactly that site is the sole, and
semantically latent, difference. -/
theorem claim_C6 :
    (∀ x : ℝ, x < -1 ∨ 1 < x → np_arccos x = none) ∧
    (∀ x : ℝ, -1 ≤ x → x ≤ 1 →
      np_arccos x = some (Real.arccos x) ∧ safe_arccos x = Real.arccos x) ∧
    (∀ s : State, calculate s = calculateClamped s) := by
  refine ⟨?_, ?_, ?_⟩
  · intro x hx
    unfold np_arccos
    rw [if_neg]
    rintro ⟨h1, h2⟩
    rcases hx with h | h <;> linarith
  · intro x h1 h2
    refine ⟨np_arccos_eq_some x h1 h2, ?_⟩
    unfold safe_arccos
    rw [clip_eq_self x h1 h2]
  · intro s
    have hom : omegaOf s = omegaClamped s := by
      unfold omegaOf omegaClamped
      by_cases hb : nmag s ≠ 0 ∧ emag s > 1e-8
      · rw [if_pos hb, if_pos hb]
        have hm := omega_arg_mem s hb.1 hb.2
        have harg : safe_arccos (dot (n_vec s) (e_vec s) / (nmag s * emag s)) =
            Real.arccos (dot (n_vec s) (e_vec s) / (nmag s * emag s)) := by
          unfold safe_arccos
          rw [clip_eq_self _ hm.1 hm.2]
        rw [np_arccos_eq_some _ hm.1 hm.2, Option.map_some', harg]
      · rw [if_neg hb, if_neg hb]
    show calculate s = { calculate s with omega := omegaClamped s }
    rw [← hom]
    rfl

theorem claim_C6_witness :
    ((2 : ℝ) < -1 ∨ 1 < (2 : ℝ)) ∧ np_arccos 2 = none ∧
    (-1 ≤ (0 : ℝ)) ∧ ((0 : ℝ) ≤ 1) ∧
    (np_arccos 0 = some (Real.arccos 0) ∧ safe_arccos 0 = Real.arccos 0) ∧
    calculate scenario1 = calculateClamped scenario1 := by
  have h1 : (2 : ℝ) < -1 ∨ 1 < (2 : ℝ) := Or.inr (by norm_num)
  have h2 : (-1 : ℝ) ≤ 0 := by norm_num
  have h3 : (0 : ℝ) ≤ 1 := by norm_num
  exact ⟨h1, claim_C6.1 2 h1, h2, h3, claim_C6.2.1 0 h2 h3, claim_C6.2.2 scenario1⟩

/-- C7: for every validated input with position and velocity not parallel,
the angular-momentum magnitude h is nonzero and the division in the
inclination is well-defined; a validated input with r parallel to v yields
h = 0, and the unguarded division produces the nan inclination. -/
theorem claim_C7 :
    (∀ s : State, Validated s → ¬ Parallel s.r s.v →
      hmag s ≠ 0 ∧
      (calculate s).i = some (degrees (safe_arccos ((h_vec s).z / hmag s)))) ∧
    (∀ s : State, Validated s → Parallel s.r s.v →
      hmag s = 0 ∧ (calculate s).i = none) := by
  constructor
  · intro s hval hnp
    have hrne : dot s.r s.r ≠ 0 := fun h0 =>
      validated_r_ne s hval ((dot_self_eq_zero_iff s.r).mp h0)
    have hc : cross s.r s.v ≠ ⟨0, 0, 0⟩ := by
      intro hc0
      exact hnp (Or.inl ⟨dot s.r s.v / dot s.r s.r,
        eq_smul_of_cross_eq_zero s.r s.v hc0 hrne⟩)
    have hh : hmag s ≠ 0 := by
      intro h0
      exact hc ((dot_self_eq_zero_iff _).mp ((vnorm_eq_zero_iff _).mp h0))
    refine ⟨hh, ?_⟩
    show iOf s = _
    unfold iOf
    rw [if_neg hh]
  · intro s hval hp
    have hc : cross s.r s.v = ⟨0, 0, 0⟩ := by
      rcases hp with ⟨t, ht⟩ | ⟨t, ht⟩
      · rw [ht]
        exact cross_smul_right t s.r
      · rw [ht]
        exact cross_smul_left t s.v
    have hh : hmag s = 0 := by
      show vnorm (h_vec s) = 0
      unfold h_vec
      rw [hc]
      exact (vnorm_eq_zero_iff _).mpr ((dot_self_eq_zero_iff _).mpr rfl)
    refine ⟨hh, ?_⟩
    show iOf s = none
    unfold iOf
    rw [if_pos hh]

theorem claim_C7_witness :
    (Validated scenario1 ∧ ¬ Parallel scenario1.r scenario1.v ∧
      (hmag scenario1 ≠ 0 ∧
        (calculate scenario1).i =
          some (degrees (safe_arccos ((h_vec scenario1).z / hmag scenario1))))) ∧
    (Validated radialState ∧ Parallel radialState.r radialState.v ∧
      (hmag radialState = 0 ∧ (calculate radialState).i = none)) :=
  ⟨⟨scenario1_validated, scenario1_not_parallel,
     claim_C7.1 scenario1 scenario1_validated scenario1_not_parallel⟩,
   ⟨radialState_validated, radial_parallel,
     claim_C7.2 radialState radialState_validated radial_parallel⟩⟩

/-- C8: calculate is deterministic and stateless: running it a second time
from the state left by the first run returns the identical result record
and the identical instance state, since it reads only r, v, mu, which it
never writes. -/
theorem claim_C8 (o : Obj) (hval : o.Valid) :
    (calculateS ((calculateS o).2)).1 = (calculateS o).1 ∧
    (calculateS ((calculateS o).2)).2 = (calculateS o).2 :=
  ⟨rfl, rfl⟩

theorem claim_C8_witness :
    obj1.Valid ∧
    ((calculateS ((calculateS obj1).2)).1 = (calculateS obj1).1 ∧
     (calculateS ((calculateS obj1).2)).2 = (calculateS obj1).2) :=
  ⟨scenario1_validated, claim_C8 obj1 scenario1_validated⟩

/-- C10: calculate leaves the stored position, velocity and gravitational
parameter unchanged; the only state it writes is the result record
self.coe and its rounded display copy self.coe_display. -/
theorem claim_C10 (o : Obj) (hval : o.Valid) :
    (calculateS o).2.r = o.r ∧ (calculateS o).2.v = o.v ∧
    (calculateS o).2.mu = o.mu ∧
    (calculateS o).2.coe = some (calculate ⟨o.r, o.v, o.mu⟩) ∧
    (calculateS o).2.coe_display = some (COE.display (calculate ⟨o.r, o.v, o.mu⟩)) :=
  ⟨rfl, rfl, rfl, rfl, rfl⟩

/-! Validation-model lemmas for C1 and C9. -/

lemma computeCOE_eq_none_iff (r v : NpVec3) (mu : ℝ) :
    computeCOE r v mu = none ↔ InvalidInput r v := by
  unfold computeCOE mkObj
  by_cases h : InvalidInput r v
  · rw [if_pos h]
    exact ⟨fun _ => h, fun _ => rfl⟩
  · rw [if_neg h]
    simp only [Option.map_some']
    exact ⟨fun hx => absurd hx (Option.some_ne_none _), fun hI => absurd hI h⟩

lemma computeCOE_eq_some (r v : NpVec3) (mu : ℝ) (h : ¬ InvalidInput r v) :
    computeCOE r v mu = some (calculate ⟨r.val, v.val, mu⟩) := by
  unfold computeCOE mkObj
  rw [if_neg h]
  rfl

lemma rTiny_closeZero : rTiny.allCloseZero := by
  simp only [rTiny, NpVec3.allCloseZero, NpFloat.closeZero, abs_le]
  norm_num

lemma rTiny_not_zero : ¬ rTiny.isZero := by
  simp only [rTiny, NpVec3.isZero, NpFloat.fin.injEq]
  norm_num

lemma rTiny_finite : rTiny.allFinite := by
  simp only [rTiny, NpVec3.allFinite, NpFloat.finite]
  exact ⟨trivial, trivial, trivial⟩

lemma vUnit_finite : vUnit.allFinite := by
  simp only [vUnit, NpVec3.allFinite, NpFloat.finite]
  exact ⟨trivial, trivial, trivial⟩

lemma vUnit_not_zero : ¬ vUnit.isZero := by
  simp only [vUnit, NpVec3.isZero, NpFloat.fin.injEq]
  norm_num

lemma valid_big : ¬ InvalidInput rBig vUnit := by
  simp only [InvalidInput, NpVec3.allCloseZero, NpVec3.allFinite, NpFloat.closeZero,
    NpFloat.finite, rBig, vUnit, abs_le]
  norm_num

/-- C1 counterexample: the input r = [1e-9, 0, 0], v = [0, 7, 0] is neither
a zero vector nor non-finite, yet the computation fails (validation raises),
because np.allclose(r, 0) holds at absolute tolerance 1e-8.  This refutes
"fails exactly when the position vector is zero, the velocity vector is
zero, or a component is non-finite". -/
theorem claim_C1_counterexample :
    computeCOE rTiny vUnit MU_EARTH = none ∧
    ¬ (rTiny.isZero ∨ vUnit.isZero ∨ ¬ rTiny.allFinite ∨ ¬ vUnit.allFinite) := by
  constructor
  · exact (computeCOE_eq_none_iff _ _ _).mpr (Or.inl rTiny_closeZero)
  · rintro (h | h | h | h)
    · exact rTiny_not_zero h
    · exact vUnit_not_zero h
    · exact h rTiny_finite
    · exact h vUnit_finite

/-- C1 as amended: the computation fails exactly when the position vector
is approximately zero (every component within numpy's allclose absolute
tolerance 1e-8 of zero, non-finite components never counting as close), the
velocity vector is approximately zero, or any component of position or
velocity is not finite; for every other input pair constructor-plus-
calculate succeeds and returns the complete seven-field record, the
validation verdict being decided before any element is computed. -/
theorem claim_C1_amended :
    (∀ (r v : NpVec3) (mu : ℝ),
      computeCOE r v mu = none ↔
        (r.allCloseZero ∨ v.allCloseZero ∨ ¬ r.allFinite ∨ ¬ v.allFinite)) ∧
    (∀ (r v : NpVec3) (mu : ℝ),
      ¬ (r.allCloseZero ∨ v.allCloseZero ∨ ¬ r.allFinite ∨ ¬ v.allFinite) →
      computeCOE r v mu = some (calculate ⟨r.val, v.val, mu⟩)) :=
  ⟨fun r v mu => computeCOE_eq_none_iff r v mu,
   fun r v mu h => computeCOE_eq_some r v mu h⟩

theorem claim_C1_amended_witness :
    ¬ (rBig.allCloseZero ∨ vUnit.allCloseZero ∨ ¬ rBig.allFinite ∨ ¬ vUnit.allFinite) ∧
    computeCOE rBig vUnit MU_EARTH =
      some (calculate ⟨rBig.val, vUnit.val, MU_EARTH⟩) :=
  ⟨valid_big, claim_C1_amended.2 rBig vUnit MU_EARTH valid_big⟩

/-- C9: validation rejects every position or velocity vector whose
components are all within numpy's allclose absolute tolerance 1e-8 of zero,
not only exactly-zero vectors: in particular the nonzero, finite input
r = [1e-9, 0, 0] is rejected. -/
theorem claim_C9 :
    (∀ (r v : NpVec3) (mu : ℝ), r.allCloseZero ∨ v.allCloseZero →
      computeCOE r v mu = none) ∧
    (computeCOE rTiny vUnit MU_EARTH = none ∧ ¬ rTiny.isZero ∧ rTiny.allFinite) := by
  constructor
  · intro r v mu h
    exact (computeCOE_eq_none_iff r v mu).mpr (h.elim Or.inl (fun hv => Or.inr (Or.inl hv)))
  · exact ⟨(computeCOE_eq_none_iff _ _ _).mpr (Or.inl rTiny_closeZero),
      rTiny_not_zero, rTiny_finite⟩

theorem claim_C9_witness :
    (rTiny.allCloseZero ∨ vUnit.allCloseZero) ∧
    computeCOE rTiny vUnit MU_EARTH = none :=
  ⟨Or.inl rTiny_closeZero,
   claim_C9.1 rTiny vUnit MU_EARTH (Or.inl rTiny_closeZero)⟩

/-- C4 counterexample: the claim "the inclination i always lies in
[0, 180]" fails on the code at the validated pure-radial input r = [1,0,0],
v = [2,0,0]: there h = 0, the unguarded division 0/0 is nan, and the stored
inclination is the nan sentinel, not a number in [0, 180]. -/
theorem claim_C4_counterexample :
    Validated radialState ∧ (calculate radialState).i = none :=
  ⟨radialState_validated, by
    show iOf radialState = none
    unfold iOf
    rw [if_pos radial_hmag_zero]⟩

/-- C4 as amended: for every validated input, each of RAAN, omega and nu,
whenever defined, lies in [0, 360) after quadrant correction, and the
inclination, whenever it is defined (that is, whenever h is nonzero — for
radial inputs it is the nan sentinel), lies in [0, 180]. -/
theorem claim_C4_amended (s : State) (hval : Validated s) :
    (∀ x : ℝ, (calculate s).RAAN = some x → 0 ≤ x ∧ x < 360) ∧
    (∀ x : ℝ, (calculate s).omega = some x → 0 ≤ x ∧ x < 360) ∧
    (∀ x : ℝ, (calculate s).nu = some x → 0 ≤ x ∧ x < 360) ∧
    (∀ x : ℝ, (calculate s).i = some x → 0 ≤ x ∧ x ≤ 180) :=
  ⟨fun x hx => raan_range s x hx, fun x hx => omega_range s x hx,
   fun x hx => nu_range s hval x hx, fun x hx => i_range s x hx⟩

theorem claim_C4_witness :
    Validated scenario1 ∧
    ((∀ x : ℝ, (calculate scenario1).RAAN = some x → 0 ≤ x ∧ x < 360) ∧
     (∀ x : ℝ, (calculate scenario1).omega = some x → 0 ≤ x ∧ x < 360) ∧
     (∀ x : ℝ, (calculate scenario1).nu = some x → 0 ≤ x ∧ x < 360) ∧
     (∀ x : ℝ, (calculate scenario1).i = some x → 0 ≤ x ∧ x ≤ 180)) :=
  ⟨scenario1_validated, claim_C4_amended scenario1 scenario1_validated⟩

/-! Concrete evaluation of calculate on scenario 1 (claim C3). -/

lemma sqrt_eval (a b : ℝ) (hb : 0 ≤ b) (h : b ^ 2 = a) : Real.sqrt a = b := by
  rw [← h]
  exact Real.sqrt_sq hb

lemma s1_r_norm : r_norm scenario1 = 7000 := by
  show Real.sqrt (dot scenario1.r scenario1.r) = 7000
  apply sqrt_eval _ _ (by norm_num)
  simp only [scenario1, dot]
  norm_num

lemma s1_v_norm : v_norm scenario1 = 7.546 := by
  show Real.sqrt (dot scenario1.v scenario1.v) = 7.546
  apply sqrt_eval _ _ (by norm_num)
  simp only [scenario1, dot]
  norm_num

lemma s1_h_vec : h_vec scenario1 = ⟨0, 0, 52822⟩ := by
  simp only [h_vec, cross, scenario1, Vec3.mk.injEq]
  norm_num

lemma s1_hmag : hmag scenario1 = 52822 := by
  show vnorm (h_vec scenario1) = 52822
  rw [s1_h_vec]
  apply sqrt_eval _ _ (by norm_num)
  simp only [dot]
  norm_num

lemma s1_n_vec : n_vec scenario1 = ⟨0, 0, 0⟩ := by
  unfold n_vec
  rw [s1_h_vec]
  simp only [cross, Vec3.mk.injEq]
  norm_num

lemma s1_nmag : nmag scenario1 = 0 := by
  show vnorm (n_vec scenario1) = 0
  rw [s1_n_vec]
  exact (vnorm_eq_zero_iff _).mpr ((dot_self_eq_zero_iff _).mpr rfl)

lemma s1_e_vec : e_vec scenario1 = ⟨-(28149 / 1993002209), 0, 0⟩ := by
  unfold e_vec
  rw [s1_v_norm, s1_r_norm]
  simp only [scenario1, MU_EARTH, smul, vsub, dot, Vec3.mk.injEq]
  norm_num

lemma s1_emag : emag scenario1 = 28149 / 1993002209 := by
  show vnorm (e_vec scenario1) = 28149 / 1993002209
  rw [s1_e_vec]
  apply sqrt_eval _ _ (by norm_num)
  simp only [dot]
  norm_num

lemma s1_e_big : emag scenario1 > 1e-8 := by
  rw [s1_emag]
  norm_num

lemma s1_e_small : emag scenario1 < 1e-4 := by
  rw [s1_emag]
  norm_num

lemma s1_raan : raanOf scenario1 = none := by
  unfold raanOf
  rw [if_neg (not_not.mpr s1_nmag)]

lemma s1_omega : omegaOf scenario1 = none := by
  unfold omegaOf
  rw [if_neg]
  rintro ⟨hn, _⟩
  exact hn s1_nmag

lemma s1_nu : nuOf scenario1 = some 180 := by
  unfold nuOf
  rw [if_pos s1_e_big]
  have hdrv : dot scenario1.r scenario1.v = 0 := by
    simp only [scenario1, dot]
    norm_num
  rw [if_neg (by rw [hdrv]; norm_num : ¬ dot scenario1.r scenario1.v < 0)]
  have harg : dot (e_vec scenario1) scenario1.r / (emag scenario1 * r_norm scenario1)
      = -1 := by
    rw [s1_e_vec, s1_emag, s1_r_norm]
    simp only [scenario1, dot]
    norm_num
  rw [harg]
  unfold safe_arccos
  rw [clip_eq_self (-1) (le_refl _) (by norm_num), Real.arccos_neg_one, degrees_pi]

lemma s1_i : iOf scenario1 = some 0 := by
  unfold iOf
  rw [if_neg (by rw [s1_hmag]; norm_num : ¬ hmag scenario1 = 0)]
  have harg : (h_vec scenario1).z / hmag scenario1 = 1 := by
    rw [s1_h_vec, s1_hmag]
    norm_num
  rw [harg]
  unfold safe_arccos
  rw [clip_eq_self 1 (by norm_num) (le_refl _), Real.arccos_one, degrees_zero]

lemma s1_energy : energyOf scenario1 = -(199303.0358 / 7000) := by
  unfold energyOf
  rw [s1_v_norm, s1_r_norm]
  simp only [scenario1, MU_EARTH]
  norm_num

lemma s1_a : aOf scenario1 = some (-MU_EARTH / (2 * energyOf scenario1)) := by
  unfold aOf
  rw [if_pos]
  · rfl
  · rw [s1_energy, abs_neg, abs_of_pos (by norm_num)]
    norm_num

lemma s1_a_bound : |(-MU_EARTH / (2 * energyOf scenario1)) - 7000| < 0.1 := by
  rw [s1_energy]
  simp only [MU_EARTH]
  rw [abs_lt]
  constructor <;> norm_num

/-- C3 counterexample: on scenario 1 (r = [7000,0,0] km, v = [0,7.546,0]
km/s, mu = 398600.4418) the code returns nu = 180 degrees, a defined value:
the eccentricity is about 1.41e-5, above the 1e-8 circular cutoff, so the
elliptical true-anomaly branch runs.  This refutes the claim that nu is the
undefined sentinel for this input. -/
theorem claim_C3_counterexample :
    (calculate scenario1).nu = some 180 ∧ (calculate scenario1).nu ≠ none := by
  have h : (calculate scenario1).nu = some 180 := s1_nu
  exact ⟨h, by rw [h]; exact Option.some_ne_none _⟩

/-- C3 as amended: for scenario 1 the result has e approximately 0 (exact
value 28149/1993002209, about 1.41e-5, below 1e-4 yet above the 1e-8
circular cutoff), i = 0, a within 0.1 of 7000 km, RAAN and omega equal to
the undefined sentinel, and nu = 180 degrees (defined, via the elliptical
branch). -/
theorem claim_C3_amended :
    (calculate scenario1).e < 1e-4 ∧
    (calculate scenario1).i = some 0 ∧
    (∃ av : ℝ, (calculate scenario1).a = some av ∧ |av - 7000| < 0.1) ∧
    (calculate scenario1).RAAN = none ∧
    (calculate scenario1).omega = none ∧
    (calculate scenario1).nu = some 180 :=
  ⟨s1_e_small, s1_i, ⟨-MU_EARTH / (2 * energyOf scenario1), s1_a, s1_a_bound⟩,
   s1_raan, s1_omega, s1_nu⟩

theorem claim_C10_witness :
    obj1.Valid ∧
    ((calculateS obj1).2.r = obj1.r ∧ (calculateS obj1).2.v = obj1.v ∧
     (calculateS obj1).2.mu = obj1.mu ∧
     (calculateS obj1).2.coe = some (calculate ⟨obj1.r, obj1.v, obj1.mu⟩) ∧
     (calculateS obj1).2.coe_display =
       some (COE.display (calculate ⟨obj1.r, obj1.v, obj1.mu⟩))) :=
  ⟨scenario1_validated, claim_C10 obj1 scenario1_validated⟩

end AdcsTools
